import Mathlib

/-!
Shallow embedding of the Kielipankki-Metax metadata bridge
(harvester/metadata_parser.py, harvester/actor.py,
harvester/language_validator.py, metax_api.py, metadata_harvester_cli.py).

XML access is abstracted: every embedded function takes the relevant
xpath query results (lists of text nodes) as explicit inputs, exactly in
the shape the lxml calls in the source produce them.  Python exceptions
are modelled with an explicit error type and `Except`.
-/

namespace KielipankkiMetax

/-- Python exceptions raised by the code paths embedded here.
`recordParsingError` carries the message and the best-effort identifier,
as in metadata_parser.RecordParsingError.  `unknownOrganization` and
`unableToParseOrganizationInfo` carry the Python value that the source
interpolates into the exception message. -/
inductive PyErr where
  | indexError : PyErr
  | keyError : String → PyErr
  | typeError : PyErr
  | valueError : String → PyErr
  | recordParsingError : String → String → PyErr
  | unknownOrganizationErr : String → PyErr
  | unableToParseOrganizationInfoErr : String → PyErr
deriving DecidableEq, Repr

instance {ε α : Type} [DecidableEq ε] [DecidableEq α] : DecidableEq (Except ε α) :=
  fun a b =>
    match a, b with
    | .ok x, .ok y =>
      if h : x = y then isTrue (by rw [h]) else isFalse (by intro hc; cases hc; exact h rfl)
    | .error x, .error y =>
      if h : x = y then isTrue (by rw [h]) else isFalse (by intro hc; cases hc; exact h rfl)
    | .ok _, .error _ => isFalse (by intro hc; cases hc)
    | .error _, .ok _ => isFalse (by intro hc; cases hc)

/-- Python str.strip(): drop leading and trailing whitespace.  (Defined on
the character list so that it evaluates inside the kernel.) -/
def pyStrip (s : String) : String :=
  ⟨((s.toList.dropWhile Char.isWhitespace).reverse.dropWhile Char.isWhitespace).reverse⟩

/-- Python str.lower(), for the ASCII range exercised here. -/
def pyLower (s : String) : String :=
  ⟨s.toList.map (fun c => if 'A' ≤ c ∧ c ≤ 'Z' then Char.ofNat (c.toNat + 32) else c)⟩

/-- Lexicographic code-point comparison of character lists, the order
Python uses to compare and sort strings. -/
def charListLe : List Char → List Char → Bool
  | [], _ => true
  | _ :: _, [] => false
  | c :: cs, d :: ds => if c = d then charListLe cs ds else decide (c < d)

def strLeB (a b : String) : Bool := charListLe a.toList b.toList

/-- The string order as a decidable relation (for Python sorted()). -/
def StrLe (a b : String) : Prop := strLeB a b = true

instance : DecidableRel StrLe := fun a b => instDecidableEqBool (strLeB a b) true

/-- A Python set of strings, embedded as its members in insertion order
(no duplicates by construction); adding a present member is a no-op. -/
def pySetInsert (rs : List String) (x : String) : List String :=
  if x ∈ rs then rs else rs ++ [x]

/-- `set.update(...)`: add every member of `new`. -/
def pySetUnion (rs : List String) (new : List String) : List String :=
  new.foldl pySetInsert rs

/-- `set(roles)` for a duplicate-free role literal. -/
def pySetOf (roles : List String) : List String :=
  pySetUnion [] roles

/-- `self.xml.xpath(...)[0]` on a list of text nodes: IndexError when empty
(metadata_parser.RecordParser._get_text_xpath). -/
def get_text_xpath (nodes : List String) : Except PyErr String :=
  match nodes with
  | [] => .error .indexError
  | t :: _ => .ok t

/-! ## Dates (metadata_parser.RecordParser._get_datetime,
cmdi_parser.MSRecordParser._get_date)

`datetime.strptime` with the two format strings used by the source is
embedded as a character-level parser following the regexes CPython
builds for the directives: %Y matches exactly four digits; %m, %H, %M
and %S match one or two digits; %d additionally accepts a space-padded
single digit.  The whole string must be consumed, each field is
range-checked, and the datetime constructor further validates the day
against the month and leap years and rejects leap seconds. -/

structure DateTimeV where
  year : Nat
  month : Nat
  day : Nat
  hour : Nat
  minute : Nat
  second : Nat
deriving DecidableEq, Repr

/-- Greedily consume up to `fuel` leading digits, accumulating their value. -/
def parseDigitsAux : Nat → Nat → List Char → Nat × List Char
  | 0, acc, cs => (acc, cs)
  | _ + 1, acc, [] => (acc, [])
  | fuel + 1, acc, c :: cs =>
    if c.isDigit then parseDigitsAux fuel (acc * 10 + (c.toNat - 48)) cs
    else (acc, c :: cs)

/-- Parse a numeric strptime field of 1 to `maxLen` digits. -/
def parseNum (maxLen : Nat) (cs : List Char) : Option (Nat × List Char) :=
  match cs with
  | [] => Option.none
  | c :: _ => if c.isDigit then some (parseDigitsAux maxLen 0 cs) else Option.none

def expectChar (c : Char) : List Char → Option (List Char)
  | [] => Option.none
  | d :: cs => if d = c then some cs else Option.none

def digitVal (c : Char) : Nat := c.toNat - 48

/-- The %Y field: exactly four digits (CPython regex \d\d\d\d). -/
def parseYear4 (cs : List Char) : Option (Nat × List Char) :=
  match cs with
  | c1 :: c2 :: c3 :: c4 :: rest =>
    if c1.isDigit ∧ c2.isDigit ∧ c3.isDigit ∧ c4.isDigit then
      some (((digitVal c1 * 10 + digitVal c2) * 10 + digitVal c3) * 10 + digitVal c4, rest)
    else Option.none
  | _ => Option.none

/-- The %d field, following the alternation of the CPython regex
3[01] or [12] with a digit or 0[1-9] or [1-9] or a space-padded [1-9]. -/
def parseDay : List Char → Option (Nat × List Char)
  | [] => Option.none
  | [c] => if '1' ≤ c ∧ c ≤ '9' then some (digitVal c, []) else Option.none
  | c1 :: c2 :: rest =>
    if c1 = '3' ∧ (c2 = '0' ∨ c2 = '1') then some (30 + digitVal c2, rest)
    else if ('1' ≤ c1 ∧ c1 ≤ '2') ∧ c2.isDigit then
      some (digitVal c1 * 10 + digitVal c2, rest)
    else if c1 = '0' ∧ ('1' ≤ c2 ∧ c2 ≤ '9') then some (digitVal c2, rest)
    else if '1' ≤ c1 ∧ c1 ≤ '9' then some (digitVal c1, c2 :: rest)
    else if c1 = ' ' ∧ ('1' ≤ c2 ∧ c2 ≤ '9') then some (digitVal c2, rest)
    else Option.none

def isLeapYear (y : Nat) : Bool :=
  decide ((y % 4 = 0 ∧ y % 100 ≠ 0) ∨ y % 400 = 0)

def daysInMonth (y m : Nat) : Nat :=
  if m = 2 then (if isLeapYear y then 29 else 28)
  else if m = 4 ∨ m = 6 ∨ m = 9 ∨ m = 11 then 30
  else 31

def validDate (y m d : Nat) : Bool :=
  decide (1 ≤ y ∧ y ≤ 9999 ∧ 1 ≤ m ∧ m ≤ 12 ∧ 1 ≤ d ∧ d ≤ daysInMonth y m)

def validTime (h mi s : Nat) : Bool :=
  decide (h ≤ 23 ∧ mi ≤ 59 ∧ s ≤ 59)

/-- `datetime.strptime(s, "%Y-%m-%d")`; time defaults to 00:00:00. -/
def strptime_date (s : String) : Option DateTimeV :=
  match parseYear4 s.toList with
  | Option.none => Option.none
  | some (y, r1) =>
    match expectChar '-' r1 with
    | Option.none => Option.none
    | some r2 =>
      match parseNum 2 r2 with
      | Option.none => Option.none
      | some (m, r3) =>
        match expectChar '-' r3 with
        | Option.none => Option.none
        | some r4 =>
          match parseDay r4 with
          | Option.none => Option.none
          | some (d, r5) =>
            if r5.isEmpty && validDate y m d then some ⟨y, m, d, 0, 0, 0⟩
            else Option.none

/-- `datetime.strptime(s, "%Y-%m-%dT%H:%M:%SZ")`. -/
def strptime_full (s : String) : Option DateTimeV :=
  match parseYear4 s.toList with
  | Option.none => Option.none
  | some (y, r1) =>
    match expectChar '-' r1 with
    | Option.none => Option.none
    | some r2 =>
      match parseNum 2 r2 with
      | Option.none => Option.none
      | some (m, r3) =>
        match expectChar '-' r3 with
        | Option.none => Option.none
        | some r4 =>
          match parseDay r4 with
          | Option.none => Option.none
          | some (d, r5) =>
            match expectChar 'T' r5 with
            | Option.none => Option.none
            | some r6 =>
              match parseNum 2 r6 with
              | Option.none => Option.none
              | some (h, r7) =>
                match expectChar ':' r7 with
                | Option.none => Option.none
                | some r8 =>
                  match parseNum 2 r8 with
                  | Option.none => Option.none
                  | some (mi, r9) =>
                    match expectChar ':' r9 with
                    | Option.none => Option.none
                    | some r10 =>
                      match parseNum 2 r10 with
                      | Option.none => Option.none
                      | some (sec, r11) =>
                        match expectChar 'Z' r11 with
                        | Option.none => Option.none
                        | some r12 =>
                          if r12.isEmpty && validDate y m d && validTime h mi sec then
                            some ⟨y, m, d, h, mi, sec⟩
                          else Option.none

def pad2 (n : Nat) : String :=
  if n < 10 then "0" ++ toString n else toString n

def pad4 (n : Nat) : String :=
  if n < 10 then "000" ++ toString n
  else if n < 100 then "00" ++ toString n
  else if n < 1000 then "0" ++ toString n
  else toString n

/-- `datetime.strftime("%Y-%m-%dT%H:%M:%SZ")`. -/
def strftime_full (dt : DateTimeV) : String :=
  pad4 dt.year ++ "-" ++ pad2 dt.month ++ "-" ++ pad2 dt.day ++ "T" ++
    pad2 dt.hour ++ ":" ++ pad2 dt.minute ++ ":" ++ pad2 dt.second ++ "Z"

/-- `datetime.strftime("%Y-%m-%dT%H:%M:%S.%fZ")` with microsecond 0,
as used by MSRecordParser._get_date. -/
def strftime_micro (dt : DateTimeV) : String :=
  pad4 dt.year ++ "-" ++ pad2 dt.month ++ "-" ++ pad2 dt.day ++ "T" ++
    pad2 dt.hour ++ ":" ++ pad2 dt.minute ++ ":" ++ pad2 dt.second ++ ".000000Z"

/-- metadata_parser.RecordParser._get_datetime.  `nodes` is the xpath text
result, `pid` the value of `self.pid`.  A string matching neither strptime
format propagates the second strptime's ValueError (carrying the offending
string); only an empty date string reaches the RecordParsingError branch. -/
def get_datetime (nodes : List String) (pid : String) : Except PyErr String := do
  let dateStr ← get_text_xpath nodes
  if dateStr ≠ "" then
    match strptime_full dateStr with
    | some dt => .ok (strftime_full dt)
    | Option.none =>
      match strptime_date dateStr with
      | some dt => .ok (strftime_full dt)
      | Option.none => .error (.valueError dateStr)
  else
    .error (.recordParsingError ("No date found from string " ++ dateStr) pid)

/-- cmdi_parser.MSRecordParser._get_date: only accepts the date-only format
and formats with microsecond precision. -/
def ms_get_date (nodes : List String) : Except PyErr String := do
  let dateStr ← get_text_xpath nodes
  if dateStr ≠ "" then
    match strptime_date dateStr with
    | some dt => .ok (strftime_micro dt)
    | Option.none => .error (.valueError dateStr)
  else
    .error (.valueError "No date found")

/-! ## Multilingual field extraction
(metadata_parser.RecordParser._get_element_text_in_preferred_language) -/

def supported_languages : List String := ["en", "fi", "und"]

/-- `query lang` stands for `self.xml.xpath(f"...[@xml:langrest]/text()")`:
the list of text nodes matching the xpath for that language tag.  The
Python result dict is embedded as an association list in insertion order. -/
def get_element_text_in_preferred_language (query : String → List String) :
    List (String × String) :=
  supported_languages.foldl (fun result lang =>
    match query lang with
    | [] => result
    | t :: _ => result ++ [(lang, pyStrip t)]) []

/-! ## Python values (harvester/actor.py)

`Actor._etree_to_dict` produces nested Python dicts whose leaves are
strings or `None`.  `PyVal` models those values; `PyDict` is a dict as an
association list in insertion order (keys unique by construction). -/

mutual
inductive PyVal where
  | str : String → PyVal
  | pynone : PyVal
  | dict : PyDict → PyVal
deriving DecidableEq, Repr
inductive PyDict where
  | nil : PyDict
  | cons : String → PyVal → PyDict → PyDict
deriving DecidableEq, Repr
end

def PyDict.ofList : List (String × PyVal) → PyDict
  | [] => .nil
  | (k, v) :: rest => .cons k v (PyDict.ofList rest)

def PyDict.lookup? (k : String) : PyDict → Option PyVal
  | .nil => Option.none
  | .cons k' v rest => if k' = k then some v else PyDict.lookup? k rest

/-- Substring containment, for Python `k in s` on strings. -/
def hasSubstring : List Char → List Char → Bool
  | needle, [] => needle.isEmpty
  | needle, c :: rest => needle.isPrefixOf (c :: rest) || hasSubstring needle rest

/-- Python `k in v`: key membership on dicts, substring test on strings,
TypeError on None. -/
def PyVal.hasKeyE (v : PyVal) (k : String) : Except PyErr Bool :=
  match v with
  | .dict d => .ok (d.lookup? k).isSome
  | .str s => .ok (hasSubstring k.toList s.toList)
  | .pynone => .error .typeError

/-- Python `v[k]`: KeyError when the key is missing, TypeError when the
value is not a dict. -/
def PyVal.getItem (v : PyVal) (k : String) : Except PyErr PyVal :=
  match v with
  | .dict d =>
    match d.lookup? k with
    | some x => .ok x
    | Option.none => .error (.keyError k)
  | _ => .error .typeError

/-- Python `v.get(k, dflt)` (AttributeError, modelled as TypeError, when
the value is not a dict). -/
def PyVal.getDefault (v : PyVal) (k : String) (dflt : PyVal) : Except PyErr PyVal :=
  match v with
  | .dict d => .ok ((d.lookup? k).getD dflt)
  | _ => .error .typeError

/-- How an f-string renders a leaf value (`None` renders as the word None;
nested dicts do not occur at the interpolation sites embedded here, a
placeholder is used). -/
def pyStr : PyVal → String
  | .str s => s
  | .pynone => "None"
  | .dict _ => "dict"

/-! ## Actor (harvester/actor.py) -/

/-- The merged actor: the attribute dict parsed from XML plus the role
set (`self.roles = set(roles)`), embedded as a duplicate-free list. -/
structure ActorS where
  data : PyVal
  roles : List String
deriving DecidableEq, Repr

/-- The inner loop of Actor.name: walk the language preference list; a
language with a given name formats given name and surname of that same
language (KeyError if the surname is absent there), a language with only
a surname formats the surname alone. -/
def nameFromLangs (pi : PyVal) : List String → Except PyErr (Option String)
  | [] => .ok Option.none
  | lang :: rest => do
    let hg ← pi.hasKeyE ("givenName_" ++ lang)
    if hg then do
      let g ← pi.getItem ("givenName_" ++ lang)
      let s ← pi.getItem ("surname_" ++ lang)
      .ok (some (pyStr g ++ " " ++ pyStr s))
    else do
      let hs ← pi.hasKeyE ("surname_" ++ lang)
      if hs then do
        let s ← pi.getItem ("surname_" ++ lang)
        .ok (some (pyStr s))
      else nameFromLangs pi rest

/-- Actor.name. -/
def nameProp (data : PyVal) : Except PyErr (Option String) := do
  let hp ← data.hasKeyE "personInfo"
  if hp then do
    let pi ← data.getItem "personInfo"
    nameFromLangs pi supported_languages
  else .ok Option.none

/-- Actor.email. -/
def emailProp (data : PyVal) : Except PyErr PyVal := do
  let pi ← data.getItem "personInfo"
  let ci ← pi.getDefault "communicationInfo" (PyVal.dict .nil)
  ci.getDefault "email" PyVal.pynone

/-- Actor._person_dict: `if self.name:` uses Python truthiness, so an
empty-string name also yields None. -/
def person_dict (data : PyVal) : Except PyErr (Option PyVal) := do
  let n ← nameProp data
  match n with
  | some nm =>
    if nm ≠ "" then do
      let e ← emailProp data
      .ok (some (PyVal.dict (.cons "name" (.str nm) (.cons "email" e .nil))))
    else .ok Option.none
  | Option.none => .ok Option.none

/-- Actor.has_person_data. -/
def has_person_data (data : PyVal) : Except PyErr Bool := do
  let p ← person_dict data
  .ok p.isSome

/-- The guard of the `_none_if_person_witout_affiliation` decorator:
true when the decorated property must return None.  The Python `and`
chain is short-circuiting, so `self.data["personInfo"]` (and its
possible KeyError) is only reached when organizationInfo is absent. -/
def org_gate_absent (data : PyVal) : Except PyErr Bool := do
  let h1 ← data.hasKeyE "organizationInfo"
  if h1 then .ok false
  else do
    let pi ← data.getItem "personInfo"
    let h2 ← pi.hasKeyE "affiliation"
    if h2 then .ok false
    else do
      let h3 ← data.hasKeyE "organizationName"
      .ok (!h3)

/-- Actor._organization_data (decorated): None becomes `pynone`. -/
def organization_data (data : PyVal) : Except PyErr PyVal := do
  let absent ← org_gate_absent data
  if absent then .ok PyVal.pynone
  else do
    let hpi ← data.hasKeyE "personInfo"
    let cond ←
      if hpi then do
        let pi ← data.getItem "personInfo"
        pi.hasKeyE "affiliation"
      else .ok false
    if cond then do
      let pi ← data.getItem "personInfo"
      pi.getItem "affiliation"
    else do
      let ha ← data.hasKeyE "affiliation"
      if ha then data.getItem "affiliation"
      else .ok data

def org_url_base : String := "http://uri.suomi.fi/codelist/fairdata/organization/code"

def organization_codes : List (String × String) :=
  [("Aalto University", "10076"),
   ("CSC — IT Center for Science Ltd", "09206320"),
   ("Centre for Applied Language Studies", "01906-213060"),
   ("FIN-CLARIN", "01901"),
   ("National Library of Finland", "01901-H981"),
   ("South Eastern Finland University of Applied Sciences", "10118"),
   ("University of Eastern Finland", "10088"),
   ("University of Helsinki", "01901"),
   ("University of Jyväskylä", "01906"),
   ("University of Oulu", "01904"),
   ("University of Tampere", "10122"),
   ("University of Turku", "10089")]

def codeLookup (s : String) : List (String × String) → Option String
  | [] => Option.none
  | (k, v) :: rest => if k = s then some v else codeLookup s rest

/-- `organization_name in organization_codes` and the table access: a
string value is looked up; None is never a key; a dict key raises
TypeError (unhashable). -/
def uriForOrganizationName (nm : PyVal) : Except PyErr String :=
  match nm with
  | .str s =>
    match codeLookup s organization_codes with
    | some code => .ok (org_url_base ++ "/" ++ code)
    | Option.none => .error (.unknownOrganizationErr s)
  | .pynone => .error (.unknownOrganizationErr "None")
  | .dict _ => .error .typeError

/-- Actor._organization_uri (not decorated; subscripting the possibly-None
`_organization_data` is modelled by `getItem` on `pynone` = TypeError). -/
def organization_uri (data : PyVal) : Except PyErr String := do
  let od ← organization_data data
  let oi ← od.getItem "organizationInfo"
  let hen ← oi.hasKeyE "organizationName_en"
  if hen then do
    let nm ← oi.getItem "organizationName_en"
    uriForOrganizationName nm
  else do
    let hfi ← oi.hasKeyE "organizationName_fi"
    if hfi then do
      let nm ← oi.getItem "organizationName_fi"
      uriForOrganizationName nm
    else .error (.unableToParseOrganizationInfoErr (pyStr oi))

def buildOrgNameLangs (oi : PyVal) : List String → Except PyErr PyDict
  | [] => .ok .nil
  | lang :: rest => do
    let h ← oi.hasKeyE ("organizationName_" ++ lang)
    if h then do
      let v ← oi.getItem ("organizationName_" ++ lang)
      let tail ← buildOrgNameLangs oi rest
      .ok (.cons lang v tail)
    else buildOrgNameLangs oi rest

/-- Actor.organization_name (decorated). -/
def organization_name (data : PyVal) : Except PyErr PyVal := do
  let absent ← org_gate_absent data
  if absent then .ok PyVal.pynone
  else do
    let od ← organization_data data
    let oi ← od.getItem "organizationInfo"
    let entries ← buildOrgNameLangs oi supported_languages
    .ok (PyVal.dict entries)

/-- Actor.organization_homepage (decorated). -/
def organization_homepage (data : PyVal) : Except PyErr PyVal := do
  let absent ← org_gate_absent data
  if absent then .ok PyVal.pynone
  else do
    let od ← organization_data data
    let oi ← od.getItem "organizationInfo"
    let ci ← oi.getItem "communicationInfo"
    let hu ← ci.hasKeyE "url"
    if hu then do
      let u ← ci.getItem "url"
      .ok (PyVal.dict (.cons "url" u .nil))
    else .ok PyVal.pynone

/-- Actor.organization_email (decorated). -/
def organization_email (data : PyVal) : Except PyErr PyVal := do
  let absent ← org_gate_absent data
  if absent then .ok PyVal.pynone
  else do
    let od ← organization_data data
    let oi ← od.getItem "organizationInfo"
    let ci ← oi.getItem "communicationInfo"
    ci.getItem "email"

/-- Actor._organization_dict (decorated): the URI form, or on
UnknownOrganizationException the structural fallback; any other error
propagates. -/
def organization_dict (data : PyVal) : Except PyErr PyVal := do
  let absent ← org_gate_absent data
  if absent then .ok PyVal.pynone
  else
    match organization_uri data with
    | .ok u => .ok (PyVal.dict (.cons "url" (.str u) .nil))
    | .error (.unknownOrganizationErr _) => do
      let pl ← organization_name data
      let hp ← organization_homepage data
      let em ← organization_email data
      .ok (PyVal.dict (.cons "pref_label" pl (.cons "homepage" hp (.cons "email" em .nil))))
    | .error e => .error e

/-- Actor.__eq__, in Python evaluation order (`and` short-circuits). -/
def actor_eq (a b : ActorS) : Except PyErr Bool := do
  let hp ← has_person_data a.data
  if hp then do
    let na ← nameProp a.data
    let nb ← nameProp b.data
    if na = nb then do
      let ea ← emailProp a.data
      let eb ← emailProp b.data
      if ea = eb then do
        let oa ← organization_dict a.data
        let ob ← organization_dict b.data
        .ok (oa = ob)
      else .ok false
    else .ok false
  else do
    let oa ← organization_dict a.data
    let ob ← organization_dict b.data
    if oa = ob then do
      let hb ← has_person_data b.data
      .ok (!hb)
    else .ok false

/-- Actor.add_roles: `self.roles.update(roles)`. -/
def add_roles (a : ActorS) (roles : List String) : ActorS :=
  { a with roles := pySetUnion a.roles roles }

/-- One step of the merge in RecordParser._get_actors:
`if new_actor in actors: actors[actors.index(new_actor)].add_roles(...)`.
Python `in` and `.index` test `existing == new`, i.e. the list element is
the left operand of `__eq__`. -/
def merge_actor : List ActorS → ActorS → Except PyErr (List ActorS)
  | [], new => .ok [new]
  | a :: rest, new => do
    let e ← actor_eq a new
    if e then .ok (add_roles a new.roles :: rest)
    else do
      let tail ← merge_actor rest new
      .ok (a :: tail)

/-- The whole merge loop over the actors encountered while scanning the
role-labelled xpath locations, in encounter order. -/
def merge_loop (actors : List ActorS) : List ActorS → Except PyErr (List ActorS)
  | [] => .ok actors
  | new :: rest => do
    let actors' ← merge_actor actors new
    merge_loop actors' rest

def merge_all (news : List ActorS) : Except PyErr (List ActorS) :=
  merge_loop [] news

/-- `sorted(self.roles)` in Actor.to_metax_dict. -/
def roleSort (rs : List String) : List String :=
  rs.insertionSort StrLe

/-- The Metax-compatible actor dict: `person = Option.none` means the
person key is absent (the organization-only form); the organization key
is always present, possibly with value None. -/
structure MetaxActor where
  roles : List String
  person : Option PyVal
  organization : PyVal
deriving DecidableEq, Repr

/-- Actor.to_metax_dict. -/
def to_metax_dict (a : ActorS) : Except PyErr MetaxActor := do
  let hp ← has_person_data a.data
  if hp then do
    let p ← person_dict a.data
    let o ← organization_dict a.data
    .ok ⟨roleSort a.roles, p, o⟩
  else do
    let o ← organization_dict a.data
    .ok ⟨roleSort a.roles, Option.none, o⟩

/-! ## Actor export and the multiple-publisher collapse
(RecordParser._get_actors, _replace_multiple_publishers_with_explanation) -/

def multiple_publishers_text : String :=
  "Multiple publishers, check distribution rights holders in original metadata by following its persistent identifier"

def synthetic_publisher : MetaxActor :=
  ⟨["publisher"], Option.none,
   PyVal.dict (.cons "pref_label" (PyVal.dict (.cons "en" (.str multiple_publishers_text) .nil)) .nil)⟩

/-- RecordParser._replace_multiple_publishers_with_explanation:
`roles.remove("publisher")` removes the first occurrence, actors left
with no roles are dropped, and the synthetic publisher is appended. -/
def replace_multiple_publishers_with_explanation (dicts : List MetaxActor) : List MetaxActor :=
  (dicts.filterMap (fun a =>
    let roles' := if "publisher" ∈ a.roles then a.roles.erase "publisher" else a.roles
    if roles' = [] then Option.none else some { a with roles := roles' }))
  ++ [synthetic_publisher]

/-- The list comprehension `[actor.to_metax_dict() for actor in actors]`:
the first export failure propagates. -/
def map_to_metax : List ActorS → Except PyErr (List MetaxActor)
  | [] => .ok []
  | a :: rest => do
    let m ← to_metax_dict a
    let tail ← map_to_metax rest
    .ok (m :: tail)

/-- The tail of RecordParser._get_actors, applied to the merged actor
list: creator/publisher cardinality checks, export to Metax dicts, and
the multiple-publisher replacement. -/
def get_actors_export (actors : List ActorS) (pid : String) :
    Except PyErr (List MetaxActor) := do
  if actors.countP (fun a => decide ("creator" ∈ a.roles)) = 0 then
    .error (.recordParsingError "No metadata creators (creator in Metax) found" pid)
  else
    let publisher_actors := actors.countP (fun a => decide ("publisher" ∈ a.roles))
    if publisher_actors = 0 then
      .error (.recordParsingError "No distribution rightsholders (publisher in Metax) found" pid)
    else do
      let dicts ← map_to_metax actors
      if publisher_actors > 1 then
        .ok (replace_multiple_publishers_with_explanation dicts)
      else .ok dicts

/-! ## Access rights (RecordParser._map_access_rights) -/

def license_mappings : List (String × String) :=
  [("CLARIN_PUB", "http://uri.suomi.fi/codelist/fairdata/license/code/ClarinPUB-1.0"),
   ("CLARIN_ACA", "http://uri.suomi.fi/codelist/fairdata/license/code/ClarinACA-1.0"),
   ("CLARIN_ACA-NC", "http://uri.suomi.fi/codelist/fairdata/license/code/ClarinACA+NC-1.0"),
   ("CLARIN_RES", "http://uri.suomi.fi/codelist/fairdata/license/code/ClarinRES-1.0"),
   ("other", "http://uri.suomi.fi/codelist/fairdata/license/code/other"),
   ("underNegotiation", "http://uri.suomi.fi/codelist/fairdata/license/code/undernegotiation"),
   ("proprietary", "http://uri.suomi.fi/codelist/fairdata/license/code/other-closed"),
   ("CC-BY", "http://uri.suomi.fi/codelist/fairdata/license/code/CC-BY-1.0"),
   ("CC-BY-ND", "http://uri.suomi.fi/codelist/fairdata/license/code/CC-BY-ND-4.0"),
   ("CC-BY-NC", "http://uri.suomi.fi/codelist/fairdata/license/code/CC-BY-NC-2.0"),
   ("CC-BY-SA", "http://uri.suomi.fi/codelist/fairdata/license/code/CC-BY-SA-3.0"),
   ("CC-BY-NC-ND", "http://uri.suomi.fi/codelist/fairdata/license/code/CC-BY-NC-ND-4.0"),
   ("CC-BY-NC-SA", "http://uri.suomi.fi/codelist/fairdata/license/code/CC-BY-NC-SA-4.0"),
   ("CC-ZERO", "http://uri.suomi.fi/codelist/fairdata/license/code/CC0-1.0"),
   ("ApacheLicence_2.0", "http://uri.suomi.fi/codelist/fairdata/license/code/Apache-2.0")]

structure LicenseD where
  url : String
  custom_url : Option String
deriving DecidableEq, Repr

structure AccessTypeD where
  url : String
deriving DecidableEq, Repr

def access_type_open : String :=
  "http://uri.suomi.fi/codelist/fairdata/access_type/code/open"

def access_type_restricted : String :=
  "http://uri.suomi.fi/codelist/fairdata/access_type/code/restricted"

def restriction_research : String :=
  "http://uri.suomi.fi/codelist/fairdata/restriction_grounds/code/research"

def restriction_other : String :=
  "http://uri.suomi.fi/codelist/fairdata/restriction_grounds/code/other"

/-- RecordParser._get_license_information.  `licenceTexts` is the
`cmd:licence/text()` result for one licenceInfo element, `customUrl`
the value of `_get_license_url_from_documentation()` (None when the
documentation scan finds nothing, `if custom_url:` truthiness). -/
def get_license_information (licenceTexts : List String) (customUrl : Option String) :
    Except PyErr (Option LicenseD) := do
  let t ← get_text_xpath licenceTexts
  match codeLookup t license_mappings with
  | some u => .ok (some ⟨u, customUrl⟩)
  | Option.none => .ok Option.none

/-- RecordParser._get_access_type. -/
def get_access_type (availabilityNodes : List String) : Except PyErr AccessTypeD := do
  let availability ← get_text_xpath availabilityNodes
  if availability = "available-unrestrictedUse" then .ok ⟨access_type_open⟩
  else .ok ⟨access_type_restricted⟩

/-- The access_rights package: `restriction_grounds = Option.none` means
the key is absent (the source only adds the key when the set of grounds
is non-empty). -/
structure AccessRights where
  license : List LicenseD
  access_type : AccessTypeD
  restriction_grounds : Option (Finset String)
deriving DecidableEq

def containsClarinACA (u : String) : Bool :=
  hasSubstring "ClarinACA".toList u.toList

/-- RecordParser._map_access_rights.  `licenceInfos` holds the
`cmd:licence/text()` result of each licenceInfo element in document
order; `customUrl` and `availabilityNodes` are as above.  Note that the
research restriction ground is added for every resolved ClarinACA
license inside the loop, before the access type is even computed. -/
def map_access_rights (licenceInfos : List (List String)) (customUrl : Option String)
    (availabilityNodes : List String) : Except PyErr AccessRights := do
  let acc ← licenceInfos.foldlM
    (fun (acc : List LicenseD × Finset String) li => do
      let l? ← get_license_information li customUrl
      match l? with
      | Option.none => .ok acc
      | some l =>
        .ok (acc.1 ++ [l],
             if containsClarinACA l.url then insert restriction_research acc.2 else acc.2))
    (([], ∅) : List LicenseD × Finset String)
  let license_list :=
    if acc.1 = [] then
      [(⟨"http://uri.suomi.fi/codelist/fairdata/license/code/other", Option.none⟩ : LicenseD)]
    else acc.1
  let access_type ← get_access_type availabilityNodes
  let rg :=
    if access_type.url = access_type_restricted ∧ acc.2 = ∅ then
      insert restriction_other acc.2
    else acc.2
  .ok ⟨license_list, access_type, if rg = ∅ then Option.none else some rg⟩

/-! ## Resource languages (RecordParser._get_resource_languages,
language_validator.language_in_vocabulary) -/

/-- The result of `iso639.Lang(code)`: part-3 and part-5 codes, the empty
string meaning the attribute is unavailable (Python falsiness). -/
structure IsoLang where
  pt3 : String
  pt5 : String
deriving DecidableEq, Repr

def lexvo3 (code : String) : String := "http://lexvo.org/id/iso639-3/" ++ code

def lexvo5 (code : String) : String := "http://lexvo.org/id/iso639-5/" ++ code

/-- The conversion described by the spec: resolve the raw code (after
lower-casing) with the external ISO 639 resolver, preferring the 639-3
code over the 639-5 family code, and build the lexvo URI. -/
def resolve_lexvo_uri (isoLookup : String → Option IsoLang) (code : String) : Option String :=
  match isoLookup (pyLower code) with
  | Option.none => Option.none
  | some l =>
    if l.pt3 ≠ "" then some (lexvo3 l.pt3)
    else if l.pt5 ≠ "" then some (lexvo5 l.pt5)
    else Option.none

/-- The loop of RecordParser._get_resource_languages.  `isoLookup`
abstracts `iso639.Lang` (None = InvalidLanguageValue), `vocab` abstracts
`language_validator.language_in_vocabulary` (membership in the fetched
URI set), and `iso639_urls` is the Python set accumulator. -/
def get_resource_languages_loop (isoLookup : String → Option IsoLang)
    (vocab : String → Bool) (pid : String) :
    List String → List String → Except PyErr (List String)
  | [], urls => .ok urls
  | code :: rest, urls =>
    match isoLookup (pyLower code) with
    | Option.none =>
      .error (.recordParsingError
        ("Could not determine ISO 639 language code for " ++ code) pid)
    | some l =>
      if l.pt3 ≠ "" then
        let uri := lexvo3 l.pt3
        get_resource_languages_loop isoLookup vocab pid rest
          (if vocab uri then pySetInsert urls uri else urls)
      else if l.pt5 ≠ "" then
        let uri := lexvo5 l.pt5
        get_resource_languages_loop isoLookup vocab pid rest
          (if vocab uri then pySetInsert urls uri else urls)
      else
        .error (.recordParsingError
          ("Could not determine three-letter language code for " ++ code) pid)

/-- RecordParser._get_resource_languages; the Python set is returned as a
list in the (unspecified) iteration order, embedded as insertion order. -/
def get_resource_languages (isoLookup : String → Option IsoLang)
    (vocab : String → Bool) (languageCodes : List String) (pid : String) :
    Except PyErr (List String) :=
  get_resource_languages_loop isoLookup vocab pid languageCodes []

/-! ## Destination registry (metax_api.py)

The Metax HTTP endpoints are modelled as operations on an explicit
registry state: a list of (Metax id, dataset record) pairs plus the next
id Metax would assign.  `ApiCall` records the requests a higher-level
operation issues. -/

structure DatasetRecord where
  pid : String
  body : String
deriving DecidableEq, Repr

structure Registry where
  entries : List (Nat × DatasetRecord)
  nextId : Nat
deriving DecidableEq, Repr

/-- Well-formedness maintained by the registry: every assigned id is
below the next fresh id. -/
def Registry.Wf (reg : Registry) : Prop :=
  ∀ e ∈ reg.entries, e.1 < reg.nextId

inductive ApiCall where
  | lookupPid : String → ApiCall
  | postDataset : String → ApiCall
  | putDataset : Nat → String → ApiCall
  | deleteDataset : String → ApiCall
deriving DecidableEq, Repr

def ApiCall.isWrite : ApiCall → Bool
  | .lookupPid _ => false
  | .postDataset _ => true
  | .putDataset _ _ => true
  | .deleteDataset _ => true

def ApiCall.isDelete : ApiCall → Bool
  | .deleteDataset _ => true
  | _ => false

/-- metax_api.get_dataset_record_metax_id: the GET with a
persistent_identifier filter; the id of the single match when
`count == 1`, None otherwise. -/
def get_dataset_record_metax_id (reg : Registry) (pid : String) : Option Nat :=
  if (reg.entries.filter (fun e => e.2.pid = pid)).length = 1 then
    (reg.entries.filter (fun e => e.2.pid = pid)).head?.map (·.1)
  else Option.none

/-- metax_api.create_dataset: POST; Metax stores the record under a fresh
id and returns that id. -/
def create_dataset (reg : Registry) (r : DatasetRecord) : Registry × Nat :=
  ({ entries := reg.entries ++ [(reg.nextId, r)], nextId := reg.nextId + 1 }, reg.nextId)

/-- metax_api.update_dataset: PUT on the record with the given Metax id. -/
def update_dataset (reg : Registry) (id : Nat) (r : DatasetRecord) : Registry :=
  { reg with entries := reg.entries.map (fun e => if e.1 = id then (id, r) else e) }

/-- Modelled from the spec: `send_record` is absent from src/metax_api.py
(only the CLI and the test suite call it).  Per the spec: look the PID
up; if an identifier is found issue one update, otherwise one create —
exactly one write request plus the lookup request. -/
def send_record (reg : Registry) (r : DatasetRecord) : Registry × List ApiCall :=
  match get_dataset_record_metax_id reg r.pid with
  | some id => (update_dataset reg id r, [.lookupPid r.pid, .putDataset id r.pid])
  | Option.none => ((create_dataset reg r).1, [.lookupPid r.pid, .postDataset r.pid])

/-- The number of registry entries carrying a PID. -/
def countPid (reg : Registry) (pid : String) : Nat :=
  (reg.entries.filter (fun e => e.2.pid = pid)).length

/-! ## Catalog listing and deletion candidates
(metax_api.datacatalog_dataset_record_pids, metadata_harvester_cli) -/

structure ListingEntry where
  id : Nat
  persistent_identifier : String
deriving DecidableEq, Repr

/-- The paginated listing: each page carries its results, the last page
has `next = null`.  Following the next links until null is the structural
recursion over this chain. -/
inductive PagedListing where
  | lastPage : List ListingEntry → PagedListing
  | pageWithNext : List ListingEntry → PagedListing → PagedListing
deriving DecidableEq, Repr

/-- The `while url:` accumulation of `data["results"]` in
metax_api.datacatalog_dataset_record_pids. -/
def collectResults : PagedListing → List ListingEntry
  | .lastPage rs => rs
  | .pageWithNext rs next => rs ++ collectResults next

/-- metax_api.datacatalog_dataset_record_pids. -/
def datacatalog_dataset_record_pids (listing : PagedListing) : List String :=
  (collectResults listing).map (·.persistent_identifier)

/-- Membership of an entry in some page of the chain. -/
def ListingEntry.InChain (e : ListingEntry) : PagedListing → Prop
  | .lastPage rs => e ∈ rs
  | .pageWithNext rs next => e ∈ rs ∨ ListingEntry.InChain e next

/-- Modelled from the spec: `delete_records_not_in` is absent from
src/metax_api.py (only the CLI and the test suite call it).  Per the
spec it computes `all_identifiers() - (pids of retained)` and issues one
delete (a lookup + delete pair) per surviving identifier. -/
def pids_to_be_deleted (destPids : List String) (retainedPids : List String) : List String :=
  destPids.filter (fun p => decide (p ∉ retainedPids))

/-- Modelled from the spec: the requests issued by the deletion pass, one
lookup + delete pair per surviving identifier. -/
def deletion_calls (destPids : List String) (retainedPids : List String) : List ApiCall :=
  (pids_to_be_deleted destPids retainedPids).flatMap
    (fun p => [ApiCall.lookupPid p, ApiCall.deleteDataset p])

/-! ## Spec-side reference functions for the name-preference claim -/

/-- Pure dict lookup (no Python-error modelling), for the spec-side
reference functions. -/
def PyVal.entry? (v : PyVal) (k : String) : Option PyVal :=
  match v with
  | .dict d => d.lookup? k
  | _ => Option.none

/-- The name-resolution rule as the spec states it: the first language in
the preference order offering at least a surname wins, with the given
name prepended when present. -/
def spec_preferred_name (pi : PyVal) : List String → Option String
  | [] => Option.none
  | lang :: rest =>
    match pi.entry? ("surname_" ++ lang) with
    | some sn =>
      match pi.entry? ("givenName_" ++ lang) with
      | some gv => some (pyStr gv ++ " " ++ pyStr sn)
      | Option.none => some (pyStr sn)
    | Option.none => spec_preferred_name pi rest

/-- The amended name rule, following the code: the first language
offering a given name or a surname wins; a given name whose language has
no surname is a hard KeyError rather than a fall-through. -/
def amended_name_rule (pi : PyVal) : List String → Except PyErr (Option String)
  | [] => .ok Option.none
  | lang :: rest =>
    match pi.entry? ("givenName_" ++ lang) with
    | some gv =>
      match pi.entry? ("surname_" ++ lang) with
      | some sn => .ok (some (pyStr gv ++ " " ++ pyStr sn))
      | Option.none => .error (.keyError ("surname_" ++ lang))
    | Option.none =>
      match pi.entry? ("surname_" ++ lang) with
      | some sn => .ok (some (pyStr sn))
      | Option.none => amended_name_rule pi rest

/-! ## Concrete fixtures used by witnesses and counterexamples -/

/-- An organization-only actor dict (a distributionRightsHolderOrganization
with a known code-table organization). -/
def helsinkiData : PyVal :=
  PyVal.dict (.cons "organizationInfo"
    (PyVal.dict (.cons "organizationName_en" (.str "University of Helsinki")
      (.cons "communicationInfo" (PyVal.dict (.cons "email" (.str "registry@helsinki.fi") .nil)) .nil))) .nil)

/-- A second organization-only actor dict with a different organization. -/
def aaltoData : PyVal :=
  PyVal.dict (.cons "organizationInfo"
    (PyVal.dict (.cons "organizationName_en" (.str "Aalto University")
      (.cons "communicationInfo" (PyVal.dict (.cons "email" (.str "registry@aalto.fi") .nil)) .nil))) .nil)

def carlPersonInfo : PyDict :=
  .cons "givenName_en" (.str "Carl Gustaf")
    (.cons "surname_en" (.str "Bernadotte")
    (.cons "givenName_fi" (.str "Kaarle")
    (.cons "surname_fi" (.str "Kustaa") .nil)))

/-- A person with a name in both English and Finnish (the name-preference
example of the spec). -/
def carlData : PyVal :=
  PyVal.dict (.cons "personInfo" (PyVal.dict carlPersonInfo) .nil)

/-- A person whose English entry has only a given name while the surname
is only available in Finnish. -/
def c9PersonInfo : PyDict :=
  .cons "givenName_en" (.str "John") (.cons "surname_fi" (.str "Tester") .nil)

def c9Data : PyVal :=
  PyVal.dict (.cons "personInfo" (PyVal.dict c9PersonInfo) .nil)

/-- Merged actors for the multiple-publisher fixture: one creator, one
publisher-only actor and one actor that is both publisher and rights
holder. -/
def c2Actors : List ActorS :=
  [⟨helsinkiData, ["creator"]⟩, ⟨helsinkiData, ["publisher"]⟩,
   ⟨aaltoData, ["publisher", "rights_holder"]⟩]

def c8ActorX : ActorS := ⟨helsinkiData, ["creator"]⟩

def c8ActorY : ActorS := ⟨helsinkiData, ["publisher"]⟩

/-- A small ISO 639 resolver table: fin has a part-3 code, smi only the
part-5 family code. -/
def isoFixture (c : String) : Option IsoLang :=
  if c = "fin" then some ⟨"fin", ""⟩
  else if c = "smi" then some ⟨"", "smi"⟩
  else Option.none

def vocabFixture (u : String) : Bool :=
  u == lexvo3 "fin" || u == lexvo5 "smi"

def emptyRegistry : Registry := ⟨[], 0⟩

def sampleRecord : DatasetRecord := ⟨"urn:nbn:fi:lb-2017021609", "record-body"⟩

/-- A two-page listing with destination PIDs A and B. -/
def chainFixture : PagedListing :=
  .pageWithNext [⟨1, "A"⟩] (.lastPage [⟨2, "B"⟩])

/-- Python str.endswith, on character lists. -/
def strEndsWith (suffix s : String) : Bool :=
  suffix.toList.reverse.isPrefixOf s.toList.reverse

/-- The access-type test the spec states the invariant with. -/
def ends_in_open (u : String) : Bool :=
  strEndsWith "/open" u

/-! # Theorems -/

/-- Bind on `Except` applied to a success. -/
theorem except_ok_bind {ε α β : Type} (x : α) (f : α → Except ε β) :
    ((Except.ok x : Except ε α) >>= f) = f x := rfl

/-- Bind on `Except` applied to a failure. -/
theorem except_error_bind {ε α β : Type} (e : ε) (f : α → Except ε β) :
    ((Except.error e : Except ε α) >>= f) = Except.error e := rfl

/-- C1: the spec demands that access_type.url ends in /open exactly when
restriction_grounds is absent, and in particular that an open-access
record never carries restriction grounds even with an ACA-family
license.  The code contradicts this (and its own docstring): the
research restriction ground is recorded inside the license loop before
the access type is consulted, so an open record with a CLARIN_ACA
license gets an /open access type together with a research restriction
ground. -/
theorem C1_access_rights_code_bug :
    map_access_rights [["CLARIN_ACA"]] Option.none ["available-unrestrictedUse"] =
      .ok ⟨[⟨"http://uri.suomi.fi/codelist/fairdata/license/code/ClarinACA-1.0", Option.none⟩],
           ⟨access_type_open⟩, some {restriction_research}⟩ ∧
    ends_in_open access_type_open = true ∧
    (some ({restriction_research} : Finset String) ≠ Option.none) := by
  refine ⟨by decide, by decide, ?_⟩
  intro h
  cases h

/-- `strptime("%Y-%m-%d")` leaves the time components at zero. -/
theorem strptime_date_time_zero (s : String) (dt : DateTimeV)
    (h : strptime_date s = some dt) :
    dt.hour = 0 ∧ dt.minute = 0 ∧ dt.second = 0 := by
  unfold strptime_date at h
  repeat' split at h
  all_goals cases h
  all_goals exact ⟨rfl, rfl, rfl⟩

/-- Neither strptime format accepts the empty string. -/
theorem strptime_date_ne_empty (dt : DateTimeV) (h : strptime_date "" = some dt) : False := by
  have : strptime_date "" = Option.none := by decide
  rw [this] at h
  cases h

theorem strptime_full_ne_empty (dt : DateTimeV) (h : strptime_full "" = some dt) : False := by
  have : strptime_full "" = Option.none := by decide
  rw [this] at h
  cases h

/-- C5 counterexample: the claim says a date in neither accepted format
makes record construction fail with a RecordParsingError; on the code
the second strptime call raises an uncaught ValueError instead (and so
no identifier is attached). -/
theorem C5_date_error_counterexample :
    get_datetime ["15.2.2017"] "urn:nbn:fi:lb-2017021609" = .error (.valueError "15.2.2017") ∧
    ∀ m i, get_datetime ["15.2.2017"] "urn:nbn:fi:lb-2017021609" ≠
      .error (.recordParsingError m i) := by
  refine ⟨by decide, ?_⟩
  intro m i h
  rw [show get_datetime ["15.2.2017"] "urn:nbn:fi:lb-2017021609" =
        .error (.valueError "15.2.2017") from by decide] at h
  cases h

/-- C5 amended: both accepted formats are normalized to the full
YYYY-MM-DDTHH:MM:SSZ form (date-only inputs get time 00:00:00) and no
default date is substituted; however an input matching neither format
fails with an uncaught ValueError (no identifier), a missing element
with IndexError, and only an empty date string reaches the
RecordParsingError branch; the Metashare-dialect _get_date accepts only
the date-only format and emits microsecond precision. -/
theorem C5_date_normalization_amended (s pid : String) :
    (∀ dt, strptime_full s = some dt → get_datetime [s] pid = .ok (strftime_full dt)) ∧
    (∀ dt, strptime_full s = Option.none → strptime_date s = some dt →
      get_datetime [s] pid = .ok (strftime_full dt)
        ∧ dt.hour = 0 ∧ dt.minute = 0 ∧ dt.second = 0) ∧
    (s ≠ "" → strptime_full s = Option.none → strptime_date s = Option.none →
      get_datetime [s] pid = .error (.valueError s)) ∧
    get_datetime [] pid = .error .indexError ∧
    get_datetime [""] pid = .error (.recordParsingError ("No date found from string " ++ "") pid) ∧
    strptime_date "217-01-01" = Option.none ∧
    get_datetime ["217-01-01"] pid = .error (.valueError "217-01-01") ∧
    strptime_date "2017-02- 5" = some ⟨2017, 2, 5, 0, 0, 0⟩ ∧
    get_datetime ["2017-02- 5"] pid = .ok "2017-02-05T00:00:00Z" ∧
    (∀ dt, strptime_date s = some dt → ms_get_date [s] = .ok (strftime_micro dt)) := by
  refine ⟨?_, ?_, ?_, rfl, ?_, by decide, rfl, by decide, rfl, ?_⟩
  · intro dt h
    by_cases hs : s = ""
    · exact absurd (hs ▸ h) (fun hc => strptime_full_ne_empty dt hc)
    · simp [get_datetime, get_text_xpath, except_ok_bind, hs, h]
  · intro dt hfull hdate
    by_cases hs : s = ""
    · exact absurd (hs ▸ hdate) (fun hc => strptime_date_ne_empty dt hc)
    · exact ⟨by simp [get_datetime, get_text_xpath, except_ok_bind, hs, hfull, hdate],
        strptime_date_time_zero s dt hdate⟩
  · intro hs hfull hdate
    simp [get_datetime, get_text_xpath, except_ok_bind, hs, hfull, hdate]
  · simp [get_datetime, get_text_xpath, except_ok_bind]
  · intro dt hdate
    by_cases hs : s = ""
    · exact absurd (hs ▸ hdate) (fun hc => strptime_date_ne_empty dt hc)
    · simp [ms_get_date, get_text_xpath, except_ok_bind, hs, hdate]

/-- C5 witness: the two accepted forms at a concrete date. -/
theorem C5_date_witness :
    get_datetime ["2017-02-15"] "urn:nbn:fi:lb-2017021609" = .ok "2017-02-15T00:00:00Z" :=
  ((C5_date_normalization_amended "2017-02-15" "urn:nbn:fi:lb-2017021609").2.1
    ⟨2017, 2, 15, 0, 0, 0⟩ (by decide) (by decide)).1

/-- The language-extraction fold, restated as a filterMap. -/
theorem gel_eq_filterMap (query : String → List String) :
    get_element_text_in_preferred_language query =
      supported_languages.filterMap (fun lang =>
        match query lang with
        | [] => Option.none
        | t :: _ => some (lang, pyStrip t)) := by
  have aux : ∀ (langs : List String) (acc : List (String × String)),
      langs.foldl (fun result lang =>
        match query lang with
        | [] => result
        | t :: _ => result ++ [(lang, pyStrip t)]) acc
      = acc ++ langs.filterMap (fun lang =>
        match query lang with
        | [] => Option.none
        | t :: _ => some (lang, pyStrip t)) := by
    intro langs
    induction langs with
    | nil => intro acc; simp
    | cons l ls ih =>
      intro acc
      cases hq : query l with
      | nil => simp [hq, ih]
      | cons t rest => simp [hq, ih]
  exact aux supported_languages []

/-- C7 counterexample: a whitespace-only first match makes the language
tag present with the empty string as its value, which the claim rules
out. -/
theorem C7_empty_value_counterexample :
    ("en", "") ∈ get_element_text_in_preferred_language
      (fun l => if l = "en" then ["  "] else []) ∧
    (fun l => if l = "en" then ["  "] else []) "en" ≠ [] := by
  constructor
  · have : get_element_text_in_preferred_language
        (fun l => if l = "en" then ["  "] else []) = [("en", "")] := by decide
    rw [this]
    exact List.mem_singleton.mpr rfl
  · decide

/-- C7 amended: for each fixed language tag the mapping contains the tag
exactly when a matching element exists, with the first match trimmed as
value; the value is the empty string precisely when the first match
trims to nothing (such a tag is not omitted). -/
theorem C7_language_extraction_amended (query : String → List String) (lang v : String) :
    (lang, v) ∈ get_element_text_in_preferred_language query ↔
      lang ∈ supported_languages ∧ ∃ t rest, query lang = t :: rest ∧ v = pyStrip t := by
  rw [gel_eq_filterMap]
  constructor
  · intro h
    rcases List.mem_filterMap.mp h with ⟨a, ha, hfa⟩
    cases hq : query a with
    | nil => rw [hq] at hfa; cases hfa
    | cons t rest =>
      rw [hq] at hfa
      have h0 : (a, pyStrip t) = (lang, v) := Option.some.inj hfa
      have h1 : a = lang := congrArg Prod.fst h0
      have h2 : pyStrip t = v := congrArg Prod.snd h0
      exact ⟨h1 ▸ ha, t, rest, h1 ▸ hq, h2.symm⟩
  · rintro ⟨hl, t, rest, hq, hv⟩
    exact List.mem_filterMap.mpr ⟨lang, hl, by rw [hq, hv]⟩

/-- C7 witness: a concrete query with a padded English title. -/
theorem C7_language_extraction_witness :
    ("en", "Time Expressions Corpus") ∈ get_element_text_in_preferred_language
      (fun l => if l = "en" then [" Time Expressions Corpus "] else []) :=
  (C7_language_extraction_amended _ "en" "Time Expressions Corpus").mpr
    ⟨by decide, " Time Expressions Corpus ", [], by decide, by decide⟩

/-- A registry with no entry for a PID answers the id lookup with None. -/
theorem lookup_none_of_countPid_zero (reg : Registry) (pid : String)
    (h : countPid reg pid = 0) :
    get_dataset_record_metax_id reg pid = Option.none := by
  unfold countPid at h
  unfold get_dataset_record_metax_id
  rw [h]
  simp

/-- Unfolding send_record on a lookup hit. -/
theorem send_record_eq_update (reg : Registry) (r : DatasetRecord) (id : Nat)
    (h : get_dataset_record_metax_id reg r.pid = some id) :
    send_record reg r =
      (update_dataset reg id r, [.lookupPid r.pid, .putDataset id r.pid]) := by
  unfold send_record
  rw [h]

/-- Unfolding send_record on a lookup miss. -/
theorem send_record_eq_create (reg : Registry) (r : DatasetRecord)
    (h : get_dataset_record_metax_id reg r.pid = Option.none) :
    send_record reg r =
      ((create_dataset reg r).1, [.lookupPid r.pid, .postDataset r.pid]) := by
  unfold send_record
  rw [h]

/-- C3: the send operation performs the PID lookup and then exactly one
write — an update when an identifier was found, a create otherwise — and
sending the same record twice against a well-formed registry that does
not yet hold the PID leaves exactly one entry for it, the second send
being an update of the id assigned by the first. -/
theorem C3_send_idempotent (reg : Registry) (r : DatasetRecord)
    (hwf : reg.Wf) (hfresh : countPid reg r.pid = 0) :
    (∀ id, get_dataset_record_metax_id reg r.pid = some id →
      (send_record reg r).2 = [.lookupPid r.pid, .putDataset id r.pid]) ∧
    (get_dataset_record_metax_id reg r.pid = Option.none →
      (send_record reg r).2 = [.lookupPid r.pid, .postDataset r.pid]) ∧
    (send_record reg r).2.countP ApiCall.isWrite = 1 ∧
    (send_record reg r).2.head? = some (.lookupPid r.pid) ∧
    (send_record reg r).2 = [.lookupPid r.pid, .postDataset r.pid] ∧
    countPid (send_record reg r).1 r.pid = 1 ∧
    (send_record (send_record reg r).1 r).2 =
      [.lookupPid r.pid, .putDataset reg.nextId r.pid] ∧
    countPid (send_record (send_record reg r).1 r).1 r.pid = 1 := by
  have hnone : get_dataset_record_metax_id reg r.pid = Option.none :=
    lookup_none_of_countPid_zero reg r.pid hfresh
  have hnil : reg.entries.filter (fun e => decide (e.2.pid = r.pid)) = [] := by
    unfold countPid at hfresh
    exact List.length_eq_zero.mp hfresh
  have hsend1 : send_record reg r =
      ((create_dataset reg r).1, [.lookupPid r.pid, .postDataset r.pid]) :=
    send_record_eq_create reg r hnone
  have hentries1 : (send_record reg r).1.entries = reg.entries ++ [(reg.nextId, r)] := by
    rw [hsend1]
    rfl
  have hfilter1 : (send_record reg r).1.entries.filter (fun e => decide (e.2.pid = r.pid)) =
      [(reg.nextId, r)] := by
    rw [hentries1, List.filter_append, hnil]
    simp
  have hcount1 : countPid (send_record reg r).1 r.pid = 1 := by
    unfold countPid
    rw [hfilter1]
    rfl
  have hlookup2 : get_dataset_record_metax_id (send_record reg r).1 r.pid =
      some reg.nextId := by
    unfold get_dataset_record_metax_id
    rw [hfilter1]
    simp
  have hsend2 : send_record (send_record reg r).1 r =
      (update_dataset (send_record reg r).1 reg.nextId r,
       [.lookupPid r.pid, .putDataset reg.nextId r.pid]) :=
    send_record_eq_update (send_record reg r).1 r reg.nextId hlookup2
  have hmapold : ∀ (l : List (Nat × DatasetRecord)), (∀ e ∈ l, e.1 ≠ reg.nextId) →
      l.map (fun e => if e.1 = reg.nextId then (reg.nextId, r) else e) = l := by
    intro l
    induction l with
    | nil => intro _; rfl
    | cons e t ih =>
      intro h
      have he : e.1 ≠ reg.nextId := h e (List.mem_cons_self e t)
      simp only [List.map_cons, if_neg he]
      rw [ih (fun x hx => h x (List.mem_cons_of_mem e hx))]
  have hentries2 : (send_record (send_record reg r).1 r).1.entries =
      reg.entries ++ [(reg.nextId, r)] := by
    rw [hsend2]
    show ((send_record reg r).1.entries.map
      (fun e => if e.1 = reg.nextId then (reg.nextId, r) else e)) = _
    rw [hentries1, List.map_append,
      hmapold reg.entries (fun e he => Nat.ne_of_lt (hwf e he))]
    simp
  refine ⟨?_, ?_, ?_, ?_, ?_, hcount1, ?_, ?_⟩
  · intro id hid
    rw [hnone] at hid
    cases hid
  · intro _
    rw [hsend1]
  · rw [hsend1]
    rfl
  · rw [hsend1]
    rfl
  · rw [hsend1]
  · rw [hsend2]
  · unfold countPid
    rw [hentries2, List.filter_append, hnil]
    simp

/-- C3 witness: sending a fresh record twice against the empty registry. -/
theorem C3_send_idempotent_witness :
    countPid (send_record (send_record emptyRegistry sampleRecord).1 sampleRecord).1
      sampleRecord.pid = 1 ∧
    (send_record (send_record emptyRegistry sampleRecord).1 sampleRecord).2 =
      [.lookupPid sampleRecord.pid, .putDataset 0 sampleRecord.pid] := by
  have h := C3_send_idempotent emptyRegistry sampleRecord
    (by intro e he; cases he) (by decide)
  exact ⟨h.2.2.2.2.2.2.2, h.2.2.2.2.2.2.1⟩

/-- Every PID on any page of the listing appears in the collected PID
list (the pagination loop follows next links to completion). -/
theorem mem_datacatalog_of_inChain (e : ListingEntry) (chain : PagedListing)
    (h : e.InChain chain) :
    e.persistent_identifier ∈ datacatalog_dataset_record_pids chain := by
  unfold datacatalog_dataset_record_pids
  induction chain with
  | lastPage rs => exact List.mem_map_of_mem _ h
  | pageWithNext rs next ih =>
    unfold collectResults
    rw [List.map_append]
    cases h with
    | inl h1 => exact List.mem_append_left _ (List.mem_map_of_mem _ h1)
    | inr h2 => exact List.mem_append_right _ (ih h2)

/-- One delete request is issued per surviving identifier. -/
theorem deletion_calls_count (dest retained : List String) :
    (deletion_calls dest retained).countP ApiCall.isDelete =
      (pids_to_be_deleted dest retained).length := by
  unfold deletion_calls
  generalize pids_to_be_deleted dest retained = l
  induction l with
  | nil => rfl
  | cons p t ih =>
    rw [show (p :: t).flatMap (fun q => [ApiCall.lookupPid q, ApiCall.deleteDataset q]) =
      [ApiCall.lookupPid p, ApiCall.deleteDataset p] ++
        t.flatMap (fun q => [ApiCall.lookupPid q, ApiCall.deleteDataset q]) from rfl]
    rw [List.countP_append, ih]
    simp [List.countP_cons, ApiCall.isDelete]
    omega

/-- C4: the deletion candidates are exactly the destination PIDs minus
the retained source PIDs (with the concrete A,B versus A example), one
delete request is issued per candidate, and pagination makes every
listed PID appear in the destination PID list. -/
theorem C4_deletion_candidates (chain : PagedListing) (retainedPids : List String) :
    (∀ p, p ∈ pids_to_be_deleted (datacatalog_dataset_record_pids chain) retainedPids ↔
       (p ∈ datacatalog_dataset_record_pids chain ∧ p ∉ retainedPids)) ∧
    (pids_to_be_deleted (datacatalog_dataset_record_pids chain) retainedPids).toFinset =
      (datacatalog_dataset_record_pids chain).toFinset \ retainedPids.toFinset ∧
    pids_to_be_deleted ["A", "B"] ["A"] = ["B"] ∧
    (deletion_calls (datacatalog_dataset_record_pids chain) retainedPids).countP
        ApiCall.isDelete =
      (pids_to_be_deleted (datacatalog_dataset_record_pids chain) retainedPids).length ∧
    (∀ e : ListingEntry, e.InChain chain →
      e.persistent_identifier ∈ datacatalog_dataset_record_pids chain) := by
  refine ⟨?_, ?_, by decide, deletion_calls_count _ _,
    fun e h => mem_datacatalog_of_inChain e chain h⟩
  · intro p
    unfold pids_to_be_deleted
    rw [List.mem_filter]
    simp
  · ext a
    simp [pids_to_be_deleted, List.mem_toFinset, List.mem_filter, Finset.mem_sdiff]

/-- C4 witness: on the concrete {A, B} destination against retained {A},
B is a deletion candidate and B is reached through the second page. -/
theorem C4_deletion_candidates_witness :
    "B" ∈ pids_to_be_deleted (datacatalog_dataset_record_pids chainFixture) ["A"] ∧
    "B" ∈ datacatalog_dataset_record_pids chainFixture :=
  ⟨((C4_deletion_candidates chainFixture ["A"]).1 "B").mpr ⟨by decide, by decide⟩,
   (C4_deletion_candidates chainFixture ["A"]).2.2.2.2 ⟨2, "B"⟩
     (Or.inr (show ListingEntry.InChain ⟨2, "B"⟩ (.lastPage [⟨2, "B"⟩]) from
       List.mem_singleton.mpr rfl))⟩

theorem mem_pySetInsert (l : List String) (u x : String) :
    x ∈ pySetInsert l u ↔ x ∈ l ∨ x = u := by
  unfold pySetInsert
  by_cases h : u ∈ l
  · rw [if_pos h]
    constructor
    · exact Or.inl
    · rintro (hx | rfl)
      · exact hx
      · exact h
  · rw [if_neg h]
    simp

theorem nodup_pySetInsert (l : List String) (u : String) (h : l.Nodup) :
    (pySetInsert l u).Nodup := by
  unfold pySetInsert
  by_cases hm : u ∈ l
  · rw [if_pos hm]
    exact h
  · rw [if_neg hm]
    exact h.append (List.nodup_singleton u)
      (fun a ha hau => hm ((List.mem_singleton.mp hau) ▸ ha))

/-- Loop invariant for the language loop: on success, the result holds
exactly the accumulator together with the vocabulary-approved resolved
URIs of the processed codes. -/
theorem language_loop_mem (iso : String → Option IsoLang) (vocab : String → Bool)
    (pid : String) :
    ∀ (codes acc out : List String),
      get_resource_languages_loop iso vocab pid codes acc = .ok out →
      ∀ uri, uri ∈ out ↔ uri ∈ acc ∨
        ∃ c ∈ codes, resolve_lexvo_uri iso c = some uri ∧ vocab uri = true := by
  intro codes
  induction codes with
  | nil =>
    intro acc out h uri
    unfold get_resource_languages_loop at h
    cases h
    simp
  | cons code rest ih =>
    intro acc out h uri
    unfold get_resource_languages_loop at h
    cases hiso : iso (pyLower code) with
    | none =>
      simp only [hiso] at h
      cases h
    | some l =>
      simp only [hiso] at h
      by_cases h3 : l.pt3 ≠ ""
      · rw [if_pos h3] at h
        have hres : resolve_lexvo_uri iso code = some (lexvo3 l.pt3) := by
          unfold resolve_lexvo_uri
          simp only [hiso]
          rw [if_pos h3]
        have hacc : ∀ v, v ∈ (if vocab (lexvo3 l.pt3) = true
            then pySetInsert acc (lexvo3 l.pt3) else acc) ↔
            v ∈ acc ∨ (v = lexvo3 l.pt3 ∧ vocab (lexvo3 l.pt3) = true) := by
          intro v
          by_cases hv : vocab (lexvo3 l.pt3) = true
          · rw [if_pos hv, mem_pySetInsert]
            simp [hv]
          · rw [if_neg hv]
            simp [hv]
        rw [ih _ out h uri, hacc uri, List.exists_mem_cons_iff, hres]
        constructor
        · rintro ((hv | ⟨rfl, hv⟩) | hr)
          · exact Or.inl hv
          · exact Or.inr (Or.inl ⟨rfl, hv⟩)
          · exact Or.inr (Or.inr hr)
        · rintro (hv | (⟨heq, hv⟩ | hr))
          · exact Or.inl (Or.inl hv)
          · cases Option.some.inj heq
            exact Or.inl (Or.inr ⟨rfl, hv⟩)
          · exact Or.inr hr
      · rw [if_neg h3] at h
        by_cases h5 : l.pt5 ≠ ""
        · rw [if_pos h5] at h
          have hres : resolve_lexvo_uri iso code = some (lexvo5 l.pt5) := by
            unfold resolve_lexvo_uri
            simp only [hiso]
            rw [if_neg h3, if_pos h5]
          have hacc : ∀ v, v ∈ (if vocab (lexvo5 l.pt5) = true
              then pySetInsert acc (lexvo5 l.pt5) else acc) ↔
              v ∈ acc ∨ (v = lexvo5 l.pt5 ∧ vocab (lexvo5 l.pt5) = true) := by
            intro v
            by_cases hv : vocab (lexvo5 l.pt5) = true
            · rw [if_pos hv, mem_pySetInsert]
              simp [hv]
            · rw [if_neg hv]
              simp [hv]
          rw [ih _ out h uri, hacc uri, List.exists_mem_cons_iff, hres]
          constructor
          · rintro ((hv | ⟨rfl, hv⟩) | hr)
            · exact Or.inl hv
            · exact Or.inr (Or.inl ⟨rfl, hv⟩)
            · exact Or.inr (Or.inr hr)
          · rintro (hv | (⟨heq, hv⟩ | hr))
            · exact Or.inl (Or.inl hv)
            · cases Option.some.inj heq
              exact Or.inl (Or.inr ⟨rfl, hv⟩)
            · exact Or.inr hr
        · rw [if_neg h5] at h
          cases h

/-- On success the language loop preserves duplicate-freeness. -/
theorem language_loop_nodup (iso : String → Option IsoLang) (vocab : String → Bool)
    (pid : String) :
    ∀ (codes acc out : List String), acc.Nodup →
      get_resource_languages_loop iso vocab pid codes acc = .ok out → out.Nodup := by
  intro codes
  induction codes with
  | nil =>
    intro acc out ha h
    unfold get_resource_languages_loop at h
    cases h
    exact ha
  | cons code rest ih =>
    intro acc out ha h
    unfold get_resource_languages_loop at h
    cases hiso : iso (pyLower code) with
    | none =>
      simp only [hiso] at h
      cases h
    | some l =>
      simp only [hiso] at h
      by_cases h3 : l.pt3 ≠ ""
      · rw [if_pos h3] at h
        refine ih _ out ?_ h
        by_cases hv : vocab (lexvo3 l.pt3) = true
        · rw [if_pos hv]
          exact nodup_pySetInsert acc _ ha
        · rw [if_neg hv]
          exact ha
      · rw [if_neg h3] at h
        by_cases h5 : l.pt5 ≠ ""
        · rw [if_pos h5] at h
          refine ih _ out ?_ h
          by_cases hv : vocab (lexvo5 l.pt5) = true
          · rw [if_pos hv]
            exact nodup_pySetInsert acc _ ha
          · rw [if_neg hv]
            exact ha
        · rw [if_neg h5] at h
          cases h

/-- An unresolvable code anywhere in the list makes the loop fail with a
RecordParsingError carrying the record PID. -/
theorem language_loop_error (iso : String → Option IsoLang) (vocab : String → Bool)
    (pid : String) :
    ∀ (codes acc : List String),
      (∃ c ∈ codes, resolve_lexvo_uri iso c = Option.none) →
      ∃ m, get_resource_languages_loop iso vocab pid codes acc =
        .error (.recordParsingError m pid) := by
  intro codes
  induction codes with
  | nil =>
    rintro acc ⟨c, hc, _⟩
    cases hc
  | cons code rest ih =>
    rintro acc ⟨c, hc, hres⟩
    unfold get_resource_languages_loop
    cases hiso : iso (pyLower code) with
    | none =>
      exact ⟨"Could not determine ISO 639 language code for " ++ code,
        by simp only [hiso]⟩
    | some l =>
      rcases List.mem_cons.mp hc with rfl | hrest
      · by_cases h3 : l.pt3 ≠ ""
        · have hpos : resolve_lexvo_uri iso c = some (lexvo3 l.pt3) := by
            unfold resolve_lexvo_uri
            simp only [hiso]
            rw [if_pos h3]
          rw [hpos] at hres
          cases hres
        · by_cases h5 : l.pt5 ≠ ""
          · have hpos : resolve_lexvo_uri iso c = some (lexvo5 l.pt5) := by
              unfold resolve_lexvo_uri
              simp only [hiso]
              rw [if_neg h3, if_pos h5]
            rw [hpos] at hres
            cases hres
          · exact ⟨"Could not determine three-letter language code for " ++ c,
              by simp only [hiso]; rw [if_neg h3, if_neg h5]⟩
      · by_cases h3 : l.pt3 ≠ ""
        · rcases ih (if vocab (lexvo3 l.pt3) = true
              then pySetInsert acc (lexvo3 l.pt3) else acc) ⟨c, hrest, hres⟩ with ⟨m, hm⟩
          exact ⟨m, by simp only [hiso]; rw [if_pos h3]; exact hm⟩
        · by_cases h5 : l.pt5 ≠ ""
          · rcases ih (if vocab (lexvo5 l.pt5) = true
                then pySetInsert acc (lexvo5 l.pt5) else acc) ⟨c, hrest, hres⟩ with ⟨m, hm⟩
            exact ⟨m, by simp only [hiso]; rw [if_neg h3, if_pos h5]; exact hm⟩
          · exact ⟨"Could not determine three-letter language code for " ++ code,
              by simp only [hiso]; rw [if_neg h3, if_neg h5]⟩

/-- C6: on success a URI is in the result exactly when some raw code
resolves to it — preferring the ISO 639-3 code over the 639-5 family
code — and the vocabulary confirms it; the result is duplicate-free; an
unresolvable code fails parsing with a RecordParsingError carrying the
PID. -/
theorem C6_resource_languages (iso : String → Option IsoLang) (vocab : String → Bool)
    (codes : List String) (pid : String) :
    (∀ out, get_resource_languages iso vocab codes pid = .ok out →
      ((∀ uri, uri ∈ out ↔
          ∃ c ∈ codes, resolve_lexvo_uri iso c = some uri ∧ vocab uri = true) ∧
        out.Nodup)) ∧
    ((∃ c ∈ codes, resolve_lexvo_uri iso c = Option.none) →
      ∃ m, get_resource_languages iso vocab codes pid =
        .error (.recordParsingError m pid)) := by
  constructor
  · intro out h
    constructor
    · intro uri
      rw [language_loop_mem iso vocab pid codes [] out h uri]
      simp
    · exact language_loop_nodup iso vocab pid codes [] out (List.nodup_nil) h
  · intro hex
    exact language_loop_error iso vocab pid codes [] hex

/-- C6 witness: fin resolves through its 639-3 code, smi through its
639-5 family code, and both are vocabulary-approved. -/
theorem C6_resource_languages_witness :
    lexvo5 "smi" ∈ ["http://lexvo.org/id/iso639-3/fin", "http://lexvo.org/id/iso639-5/smi"] :=
  (((C6_resource_languages isoFixture vocabFixture ["fin", "smi", "FIN"] "p").1
      ["http://lexvo.org/id/iso639-3/fin", "http://lexvo.org/id/iso639-5/smi"]
      (by decide)).1 (lexvo5 "smi")).mpr
    ⟨"smi", by decide, by decide, by decide⟩

theorem toFinset_pySetInsert (a : List String) (x : String) :
    (pySetInsert a x).toFinset = insert x a.toFinset := by
  unfold pySetInsert
  by_cases h : x ∈ a
  · rw [if_pos h, Finset.insert_eq_self.mpr (List.mem_toFinset.mpr h)]
  · rw [if_neg h, List.toFinset_append]
    show a.toFinset ∪ [x].toFinset = _
    rw [Finset.insert_eq, Finset.union_comm]
    rfl

theorem toFinset_pySetUnion (a b : List String) :
    (pySetUnion a b).toFinset = a.toFinset ∪ b.toFinset := by
  induction b generalizing a with
  | nil => simp [pySetUnion]
  | cons x b' ih =>
    show (pySetUnion (pySetInsert a x) b').toFinset = _
    rw [ih (pySetInsert a x), toFinset_pySetInsert]
    rw [List.toFinset_cons]
    rw [Finset.insert_union, Finset.union_insert]

/-- C8: two mentions that the code considers equal are merged by
role-set union regardless of encounter order: either order leaves a
single actor carrying the union of the two role sets (the same set both
ways), and the canonical data kept is the first mention seen. -/
theorem C8_role_merge_commutative (x y : ActorS)
    (hxy : actor_eq x y = .ok true) (hyx : actor_eq y x = .ok true)
    (hd : x.roles.Disjoint y.roles) :
    merge_all [x, y] = .ok [⟨x.data, pySetUnion x.roles y.roles⟩] ∧
    merge_all [y, x] = .ok [⟨y.data, pySetUnion y.roles x.roles⟩] ∧
    (pySetUnion x.roles y.roles).toFinset = x.roles.toFinset ∪ y.roles.toFinset ∧
    (pySetUnion x.roles y.roles).toFinset = (pySetUnion y.roles x.roles).toFinset := by
  have h1 : merge_actor [x] y = .ok [add_roles x y.roles] := by
    unfold merge_actor
    rw [hxy]
    rfl
  have h2 : merge_actor [y] x = .ok [add_roles y x.roles] := by
    unfold merge_actor
    rw [hyx]
    rfl
  refine ⟨?_, ?_, toFinset_pySetUnion x.roles y.roles, ?_⟩
  · show merge_loop [] [x, y] = _
    unfold merge_loop
    rw [show merge_actor [] x = .ok [x] from rfl, except_ok_bind]
    unfold merge_loop
    rw [h1, except_ok_bind]
    rfl
  · show merge_loop [] [y, x] = _
    unfold merge_loop
    rw [show merge_actor [] y = .ok [y] from rfl, except_ok_bind]
    unfold merge_loop
    rw [h2, except_ok_bind]
    rfl
  · rw [toFinset_pySetUnion, toFinset_pySetUnion]
    exact Finset.union_comm _ _

/-- C8 witness: two organization-only mentions of the same organization
with the creator and publisher roles. -/
theorem C8_role_merge_commutative_witness :
    merge_all [c8ActorX, c8ActorY] = .ok [⟨helsinkiData, ["creator", "publisher"]⟩] :=
  (C8_role_merge_commutative c8ActorX c8ActorY (by decide) (by decide)
    (by intro a ha hb
        rw [List.mem_singleton.mp ha] at hb
        exact absurd (List.mem_singleton.mp hb) (by decide))).1

/-- C9 counterexample: with a given name in English but a surname only in
Finnish, the spec rule resolves to the Finnish surname while the code
raises a KeyError on the missing English surname. -/
theorem C9_name_preference_counterexample :
    nameProp c9Data = .error (.keyError "surname_en") ∧
    spec_preferred_name (PyVal.dict c9PersonInfo) supported_languages = some "Tester" ∧
    nameProp c9Data ≠
      .ok (spec_preferred_name (PyVal.dict c9PersonInfo) supported_languages) := by
  refine ⟨by decide, by decide, by decide⟩

/-- The name walk of Actor.name agrees with the amended rule: the first
language offering a given name or a surname wins, and a given name whose
language lacks a surname is a KeyError. -/
theorem nameFromLangs_eq_amended (pi : PyDict) (langs : List String) :
    nameFromLangs (PyVal.dict pi) langs = amended_name_rule (PyVal.dict pi) langs := by
  induction langs with
  | nil => rfl
  | cons lang rest ih =>
    unfold nameFromLangs amended_name_rule
    cases hg : PyDict.lookup? ("givenName_" ++ lang) pi with
    | some gv =>
      cases hs : PyDict.lookup? ("surname_" ++ lang) pi with
      | some sn =>
        simp [PyVal.hasKeyE, PyVal.getItem, PyVal.entry?, hg, hs, except_ok_bind]
      | none =>
        simp [PyVal.hasKeyE, PyVal.getItem, PyVal.entry?, hg, hs, except_ok_bind,
          except_error_bind]
    | none =>
      cases hs : PyDict.lookup? ("surname_" ++ lang) pi with
      | some sn =>
        simp [PyVal.hasKeyE, PyVal.getItem, PyVal.entry?, hg, hs, except_ok_bind]
      | none =>
        simp [PyVal.hasKeyE, PyVal.getItem, PyVal.entry?, hg, hs, except_ok_bind, ih]

/-- C9 amended: name resolution walks en, fi, und and takes the first
language offering a given name or a surname; the given name is prepended
when present, but a given name whose language has no surname raises a
KeyError instead of falling through; actors without personInfo resolve
to no name. -/
theorem C9_name_preference_amended (d : PyDict) (pi : PyDict) :
    (PyDict.lookup? "personInfo" d = some (PyVal.dict pi) →
      nameProp (PyVal.dict d) = amended_name_rule (PyVal.dict pi) supported_languages) ∧
    (PyDict.lookup? "personInfo" d = Option.none →
      nameProp (PyVal.dict d) = .ok Option.none) := by
  constructor
  · intro h
    unfold nameProp
    simp [PyVal.hasKeyE, PyVal.getItem, h, except_ok_bind]
    exact nameFromLangs_eq_amended pi supported_languages
  · intro h
    unfold nameProp
    simp [PyVal.hasKeyE, PyVal.getItem, h, except_ok_bind]

/-- C9 witness: the actor named in both English and Finnish resolves to
the English form, English preceding Finnish in the preference order. -/
theorem C9_name_preference_witness :
    nameProp carlData = .ok (some "Carl Gustaf Bernadotte") := by
  show nameProp (PyVal.dict (.cons "personInfo" (PyVal.dict carlPersonInfo) .nil)) = _
  rw [(C9_name_preference_amended
    (.cons "personInfo" (PyVal.dict carlPersonInfo) .nil) carlPersonInfo).1 rfl]
  decide

theorem charListLe_total : ∀ a b : List Char, charListLe a b = true ∨ charListLe b a = true
  | [], _ => Or.inl rfl
  | _ :: _, [] => Or.inr rfl
  | c :: cs, d :: ds => by
    by_cases h : c = d
    · subst h
      unfold charListLe
      rw [if_pos rfl, if_pos rfl]
      exact charListLe_total cs ds
    · unfold charListLe
      rw [if_neg h, if_neg (Ne.symm h)]
      rcases lt_trichotomy c d with hlt | heq | hgt
      · exact Or.inl (decide_eq_true hlt)
      · exact absurd heq h
      · exact Or.inr (decide_eq_true hgt)

theorem charListLe_trans : ∀ a b c : List Char,
    charListLe a b = true → charListLe b c = true → charListLe a c = true
  | [], _, _, _, _ => rfl
  | _ :: _, [], _, h1, _ => by cases h1
  | _ :: _, _ :: _, [], _, h2 => by cases h2
  | a :: as, b :: bs, c :: cs, h1, h2 => by
    unfold charListLe at h1 h2 ⊢
    by_cases hab : a = b
    · subst hab
      rw [if_pos rfl] at h1
      by_cases hac : a = c
      · subst hac
        rw [if_pos rfl] at h2 ⊢
        exact charListLe_trans as bs cs h1 h2
      · rw [if_neg hac] at h2 ⊢
        exact h2
    · rw [if_neg hab] at h1
      have hlt : a < b := of_decide_eq_true h1
      by_cases hbc : b = c
      · subst hbc
        rw [if_neg hab]
        exact decide_eq_true hlt
      · rw [if_neg hbc] at h2
        have hlt2 : b < c := of_decide_eq_true h2
        have hac : a < c := lt_trans hlt hlt2
        rw [if_neg (ne_of_lt hac)]
        exact decide_eq_true hac

theorem charListLe_antisymm : ∀ a b : List Char,
    charListLe a b = true → charListLe b a = true → a = b
  | [], [], _, _ => rfl
  | [], _ :: _, _, h2 => by cases h2
  | _ :: _, [], h1, _ => by cases h1
  | a :: as, b :: bs, h1, h2 => by
    unfold charListLe at h1 h2
    by_cases hab : a = b
    · subst hab
      rw [if_pos rfl] at h1 h2
      rw [charListLe_antisymm as bs h1 h2]
    · rw [if_neg hab] at h1
      rw [if_neg (Ne.symm hab)] at h2
      exact absurd (lt_trans (of_decide_eq_true h1) (of_decide_eq_true h2)) (lt_irrefl a)

theorem string_toList_inj {a b : String} (h : a.toList = b.toList) : a = b := by
  cases a
  cases b
  exact congrArg String.mk h

instance : IsTotal String StrLe :=
  ⟨fun a b => charListLe_total a.toList b.toList⟩

instance : IsTrans String StrLe :=
  ⟨fun a b c => charListLe_trans a.toList b.toList c.toList⟩

instance : IsAntisymm String StrLe :=
  ⟨fun a b h1 h2 => string_toList_inj (charListLe_antisymm _ _ h1 h2)⟩

theorem roleSort_eq_of_perm (r1 r2 : List String) (h : r1.Perm r2) :
    roleSort r1 = roleSort r2 :=
  List.eq_of_perm_of_sorted
    ((List.perm_insertionSort _ r1).trans (h.trans (List.perm_insertionSort _ r2).symm))
    (List.sorted_insertionSort _ r1) (List.sorted_insertionSort _ r2)

/-- The exported roles list is always the sorted role set. -/
theorem to_metax_dict_roles (a : ActorS) (m : MetaxActor)
    (h : to_metax_dict a = .ok m) : m.roles = roleSort a.roles := by
  unfold to_metax_dict at h
  cases hp : has_person_data a.data with
  | error e =>
    rw [hp, except_error_bind] at h
    cases h
  | ok b =>
    rw [hp, except_ok_bind] at h
    cases b with
    | false =>
      rw [if_neg (by decide : ¬(false = true))] at h
      cases ho : organization_dict a.data with
      | error e =>
        rw [ho, except_error_bind] at h
        cases h
      | ok o =>
        rw [ho, except_ok_bind] at h
        cases Except.ok.inj h
        rfl
    | true =>
      rw [if_pos rfl] at h
      cases hpd : person_dict a.data with
      | error e =>
        rw [hpd, except_error_bind] at h
        cases h
      | ok p =>
        rw [hpd, except_ok_bind] at h
        cases ho : organization_dict a.data with
        | error e =>
          rw [ho, except_error_bind] at h
          cases h
        | ok o =>
          rw [ho, except_ok_bind] at h
          cases Except.ok.inj h
          rfl

theorem nodup_pySetUnion (a b : List String) (h : a.Nodup) : (pySetUnion a b).Nodup := by
  induction b generalizing a with
  | nil => exact h
  | cons x b' ih => exact ih (pySetInsert a x) (nodup_pySetInsert a x h)

/-- C10: role sets stay duplicate-free under any sequence of role
additions, the exported roles list is sorted, and two actors with the
same data that end up with the same role set export identical dicts —
so the export does not depend on the order in which roles were added. -/
theorem C10_sorted_roles_export (a b : ActorS) (hdata : a.data = b.data)
    (hna : a.roles.Nodup) (hnb : b.roles.Nodup)
    (hset : a.roles.toFinset = b.roles.toFinset) :
    to_metax_dict a = to_metax_dict b ∧
    (∀ m, to_metax_dict a = .ok m → m.roles.Sorted StrLe) ∧
    (∀ (c : ActorS) (adds : List (List String)), c.roles.Nodup →
      (adds.foldl add_roles c).roles.Nodup) := by
  have hperm : a.roles.Perm b.roles :=
    List.perm_of_nodup_nodup_toFinset_eq hna hnb hset
  have hsort : roleSort a.roles = roleSort b.roles := roleSort_eq_of_perm _ _ hperm
  refine ⟨?_, ?_, ?_⟩
  · obtain ⟨da, ra⟩ := a
    obtain ⟨db, rb⟩ := b
    cases hdata
    unfold to_metax_dict
    rw [show roleSort ra = roleSort rb from hsort]
  · intro m hm
    rw [to_metax_dict_roles a m hm]
    exact List.sorted_insertionSort _ _
  · intro c adds
    induction adds generalizing c with
    | nil => exact fun h => h
    | cons rs rest ih =>
      intro hn
      exact ih (add_roles c rs) (nodup_pySetUnion c.roles rs hn)

/-- C10 witness: the publisher and rights-holder roles added in either
order export the same sorted dict. -/
theorem C10_sorted_roles_export_witness :
    to_metax_dict ⟨helsinkiData, ["publisher", "rights_holder"]⟩ =
      to_metax_dict ⟨helsinkiData, ["rights_holder", "publisher"]⟩ :=
  (C10_sorted_roles_export ⟨helsinkiData, ["publisher", "rights_holder"]⟩
    ⟨helsinkiData, ["rights_holder", "publisher"]⟩ rfl
    (by decide) (by decide) (by decide)).1

theorem map_to_metax_mem_rev : ∀ (l : List ActorS) (out : List MetaxActor),
    map_to_metax l = .ok out → ∀ m ∈ out, ∃ a ∈ l, to_metax_dict a = .ok m
  | [], out, h => by
    cases h
    intro m hm
    cases hm
  | a :: rest, out, h => by
    unfold map_to_metax at h
    cases hma : to_metax_dict a with
    | error e =>
      rw [hma, except_error_bind] at h
      cases h
    | ok m0 =>
      rw [hma, except_ok_bind] at h
      cases hmt : map_to_metax rest with
      | error e =>
        rw [hmt, except_error_bind] at h
        cases h
      | ok tail =>
        rw [hmt, except_ok_bind] at h
        cases h
        intro m hm
        rcases List.mem_cons.mp hm with rfl | htail
        · exact ⟨a, List.mem_cons_self a rest, hma⟩
        · rcases map_to_metax_mem_rev rest tail hmt m htail with ⟨a', ha', hm'⟩
          exact ⟨a', List.mem_cons_of_mem a ha', hm'⟩

theorem map_to_metax_mem_fwd : ∀ (l : List ActorS) (out : List MetaxActor),
    map_to_metax l = .ok out → ∀ a ∈ l, ∃ m ∈ out, to_metax_dict a = .ok m
  | [], out, h => by
    cases h
    intro a ha
    cases ha
  | a :: rest, out, h => by
    unfold map_to_metax at h
    cases hma : to_metax_dict a with
    | error e =>
      rw [hma, except_error_bind] at h
      cases h
    | ok m0 =>
      rw [hma, except_ok_bind] at h
      cases hmt : map_to_metax rest with
      | error e =>
        rw [hmt, except_error_bind] at h
        cases h
      | ok tail =>
        rw [hmt, except_ok_bind] at h
        cases h
        intro b hb
        rcases List.mem_cons.mp hb with rfl | hrest
        · exact ⟨m0, List.mem_cons_self m0 tail, hma⟩
        · rcases map_to_metax_mem_fwd rest tail hmt b hrest with ⟨m', hm', hb'⟩
          exact ⟨m', List.mem_cons_of_mem m0 hm', hb'⟩

/-- The exported roles list of an actor with a duplicate-free role set is
duplicate-free. -/
theorem exported_roles_nodup (a : ActorS) (m : MetaxActor) (hn : a.roles.Nodup)
    (h : to_metax_dict a = .ok m) : m.roles.Nodup := by
  rw [to_metax_dict_roles a m h]
  exact (List.Perm.nodup_iff (List.perm_insertionSort StrLe a.roles)).mpr hn

/-- After the multiple-publisher cleanup, no kept real actor retains the
publisher role. -/
theorem cleaned_no_publisher (dicts : List MetaxActor)
    (hnd : ∀ m ∈ dicts, m.roles.Nodup) :
    ∀ d ∈ dicts.filterMap (fun a =>
      let roles' := if "publisher" ∈ a.roles then a.roles.erase "publisher" else a.roles
      if roles' = [] then Option.none else some { a with roles := roles' }),
      "publisher" ∉ d.roles := by
  intro d hd
  rcases List.mem_filterMap.mp hd with ⟨m, hm, hclean⟩
  dsimp only at hclean
  by_cases hmem : "publisher" ∈ m.roles
  · rw [if_pos hmem] at hclean
    by_cases hnil : m.roles.erase "publisher" = []
    · rw [if_pos hnil] at hclean
      cases hclean
    · rw [if_neg hnil] at hclean
      cases Option.some.inj hclean
      intro hc
      exact absurd ((List.Nodup.mem_erase_iff (hnd m hm)).mp hc).1 (by simp)
  · rw [if_neg hmem] at hclean
    by_cases hnil : m.roles = []
    · rw [if_pos hnil] at hclean
      cases hclean
    · rw [if_neg hnil] at hclean
      cases Option.some.inj hclean
      exact hmem

/-- C2: when two or more merged actors hold the publisher role, the
export keeps exactly one publisher entry — the synthetic multiple-
publishers actor — and every real actor that held publisher together
with other roles is kept with publisher removed and the rest intact. -/
theorem C2_multiple_publisher_collapse (actors : List ActorS) (pid : String)
    (out : List MetaxActor)
    (hnodup : ∀ a ∈ actors, a.roles.Nodup)
    (hpub : 2 ≤ actors.countP (fun a => decide ("publisher" ∈ a.roles)))
    (hok : get_actors_export actors pid = .ok out) :
    out.countP (fun d => decide ("publisher" ∈ d.roles)) = 1 ∧
    (∀ d ∈ out, "publisher" ∈ d.roles → d = synthetic_publisher) ∧
    synthetic_publisher ∈ out ∧
    (∀ a ∈ actors, ∀ m, to_metax_dict a = .ok m → "publisher" ∈ m.roles →
      m.roles.erase "publisher" ≠ [] →
      ({ m with roles := m.roles.erase "publisher" } : MetaxActor) ∈ out) := by
  unfold get_actors_export at hok
  split at hok
  · cases hok
  · dsimp only at hok
    split at hok
    · cases hok
    · cases hmt : map_to_metax actors with
      | error e =>
        rw [hmt, except_error_bind] at hok
        cases hok
      | ok dicts =>
        rw [hmt, except_ok_bind] at hok
        split at hok
        case isFalse hle =>
          exact absurd hpub (by omega)
        case isTrue hgt =>
        cases hok
        have hnd : ∀ m ∈ dicts, m.roles.Nodup := by
          intro m hm
          rcases map_to_metax_mem_rev actors dicts hmt m hm with ⟨a, ha, hma⟩
          exact exported_roles_nodup a m (hnodup a ha) hma
        have hno := cleaned_no_publisher dicts hnd
        unfold replace_multiple_publishers_with_explanation
        refine ⟨?_, ?_, ?_, ?_⟩
        · rw [List.countP_append]
          rw [List.countP_eq_zero.mpr (by
            intro d hd hp
            exact hno d hd (of_decide_eq_true hp))]
          rfl
        · intro d hd hp
          rcases List.mem_append.mp hd with hdc | hds
          · exact absurd hp (hno d hdc)
          · exact List.mem_singleton.mp hds
        · exact List.mem_append_right _ (List.mem_singleton.mpr rfl)
        · intro a ha m hm hpm hne
          rcases map_to_metax_mem_fwd actors dicts hmt a ha with ⟨m', hm', hma'⟩
          cases Except.ok.inj (hma'.symm.trans hm)
          refine List.mem_append_left _ (List.mem_filterMap.mpr ⟨m, hm', ?_⟩)
          dsimp only
          rw [if_pos hpm, if_neg hne]

/-- C2 witness: a creator, a publisher-only actor and a publisher that is
also a rights holder collapse into one synthetic publisher entry; the
rights holder keeps its remaining role. -/
theorem C2_multiple_publisher_collapse_witness :
    synthetic_publisher ∈
      [(⟨["creator"], Option.none, PyVal.dict (.cons "url"
          (.str "http://uri.suomi.fi/codelist/fairdata/organization/code/01901") .nil)⟩ : MetaxActor),
       ⟨["rights_holder"], Option.none, PyVal.dict (.cons "url"
          (.str "http://uri.suomi.fi/codelist/fairdata/organization/code/10076") .nil)⟩,
       synthetic_publisher] :=
  (C2_multiple_publisher_collapse c2Actors "urn:x" _
    (by decide) (by decide) (by decide)).2.2.1

end KielipankkiMetax
